import Mathlib

/-
Formal model of the zero-radio local music library services.

The definitions below are shallow embeddings of the TypeScript services:
strings are Lean strings (lists of characters; the repository only ever
compares ASCII text), numbers carrying fractional scores are rationals,
the IndexedDB object stores are insertion-ordered lists keyed by the
record id (a `put` replaces the record with the same id or appends), and
asynchronous methods become pure state-passing functions.  JavaScript
`Map` objects are embedded as insertion-ordered association lists, since
`Map.set` updates a key in place and iteration follows insertion order.
-/

-- ===== String helpers (JavaScript primitives used by the services) =====

/-- JavaScript `String.prototype.toLowerCase` restricted to ASCII, which is
the only alphabet the repository compares. -/
def jsToLower (s : String) : String := ⟨s.data.map Char.toLower⟩

/-- JavaScript `String.prototype.trim`: strip whitespace at both ends. -/
def jsTrim (s : String) : String :=
  ⟨((s.data.dropWhile Char.isWhitespace).reverse.dropWhile Char.isWhitespace).reverse⟩

/-- JavaScript whitespace-run collapsing, the `replace` call with the
global whitespace-run regex: every maximal run of whitespace characters
becomes a single space.  A run is collapsed by dropping each whitespace
character that is followed by another one and keeping a single space at
the end of the run. -/
def collapseWs : List Char → List Char
  | [] => []
  | [c] => if c.isWhitespace then [' '] else [c]
  | c :: d :: rest =>
    if c.isWhitespace then
      if d.isWhitespace then collapseWs (d :: rest)
      else ' ' :: d :: collapseWs rest
    else c :: collapseWs (d :: rest)

/-- JavaScript global hyphen replacement: every hyphen becomes a space. -/
def replaceHyphens (l : List Char) : List Char :=
  l.map (fun c => if c = '-' then ' ' else c)

/-- JavaScript `String.prototype.split` with a one-character separator. -/
def splitChar (sep : Char) : List Char → List (List Char)
  | [] => [[]]
  | c :: rest =>
    if c = sep then [] :: splitChar sep rest
    else
      match splitChar sep rest with
      | [] => [[c]]
      | s :: ss => (c :: s) :: ss

/-- String-valued wrapper around `splitChar`. -/
def jsSplitChar (sep : Char) (s : String) : List String :=
  (splitChar sep s.data).map (fun l => ⟨l⟩)

/-- JavaScript `String.prototype.includes`: `sub` occurs contiguously in
the haystack. -/
def containsSub : List Char → List Char → Bool
  | [], sub => sub.isEmpty
  | a :: t, sub => (sub.isPrefixOf (a :: t)) || containsSub t sub

/-- The substring relation `containsSub` decides, stated structurally. -/
def SubstringOf (sub hay : List Char) : Prop := ∃ pre post, hay = pre ++ sub ++ post

-- ===== Genre similarity (src/src/services/id3Service.ts) =====

/-- The static alias table of `normalizeGenre`. -/
def genreAliasMap : List (String × String) :=
  [("alt. rock", "alternative rock"),
   ("rhythm & blues", "r&b"),
   ("rhythm and blues", "r&b"),
   ("r&b", "r&b"),
   ("r&b music", "r&b")]

/-- `normalizeGenre` from id3Service.ts: lowercase, trim, collapse
whitespace, replace hyphens, then look the result up in the alias table.
When the lookup misses, the source returns the ORIGINAL argument
(`genreMap[lowerGenre] || genre`), not the lowercased form. -/
def normalizeGenre (genre : String) : String :=
  let lowerGenre : String := ⟨replaceHyphens (collapseWs (jsTrim (jsToLower genre)).data)⟩
  match genreAliasMap.find? (fun p => p.1 = lowerGenre) with
  | some p => p.2
  | none => genre

/-- The curated genre relation table of `genreSimilarity`, in source order. -/
def genreRelationships : List (String × String × ℚ) :=
  [("pop", "dance", mkRat 7 10),
   ("pop", "synth pop", mkRat 6 10),
   ("pop", "indie pop", mkRat 7 10),
   ("pop", "adult contemporary", mkRat 6 10),
   ("dance", "electronic", mkRat 6 10),
   ("dance", "house", mkRat 8 10),
   ("dance", "techno", mkRat 6 10),
   ("dance", "progressive house", mkRat 7 10),
   ("dance", "deep house", mkRat 8 10),
   ("rock", "alternative rock", mkRat 8 10),
   ("rock", "punk", mkRat 7 10),
   ("rock", "metal", mkRat 6 10),
   ("rock", "hard rock", mkRat 8 10),
   ("rock", "progressive rock", mkRat 6 10),
   ("rock", "indie rock", mkRat 8 10),
   ("alternative rock", "indie rock", mkRat 8 10),
   ("alternative rock", "grunge", mkRat 7 10),
   ("punk", "post punk", mkRat 6 10),
   ("punk", "ska", mkRat 5 10),
   ("electronic", "house", mkRat 7 10),
   ("electronic", "techno", mkRat 7 10),
   ("electronic", "ambient", mkRat 5 10),
   ("electronic", "dubstep", mkRat 6 10),
   ("electronic", "drum and bass", mkRat 6 10),
   ("house", "deep house", mkRat 8 10),
   ("house", "progressive house", mkRat 8 10),
   ("techno", "acid techno", mkRat 8 10),
   ("techno", "progressive techno", mkRat 7 10),
   ("techno", "minimal techno", mkRat 7 10),
   ("hip hop", "rap", mkRat 9 10),
   ("hip hop", "trap", mkRat 7 10),
   ("hip hop", "conscious rap", mkRat 7 10),
   ("hip hop", "gangsta rap", mkRat 8 10),
   ("rap", "conscious rap", mkRat 7 10),
   ("rap", "gangsta rap", mkRat 8 10),
   ("trap", "melodic trap", mkRat 6 10),
   ("trap", "cloud rap", mkRat 5 10),
   ("soul", "r&b", mkRat 8 10),
   ("soul", "funk", mkRat 7 10),
   ("soul", "motown", mkRat 7 10),
   ("r&b", "contemporary r&b", mkRat 8 10),
   ("r&b", "neo soul", mkRat 7 10),
   ("funk", "disco", mkRat 6 10),
   ("funk", "soul funk", mkRat 8 10),
   ("jazz", "fusion", mkRat 7 10),
   ("jazz", "smooth jazz", mkRat 6 10),
   ("jazz", "bebop", mkRat 6 10),
   ("jazz", "swing", mkRat 5 10),
   ("fusion", "progressive rock", mkRat 5 10),
   ("bebop", "jazz fusion", mkRat 7 10),
   ("country", "bluegrass", mkRat 7 10),
   ("country", "folk", mkRat 6 10),
   ("country", "country rock", mkRat 7 10),
   ("bluegrass", "folk", mkRat 6 10),
   ("country rock", "alternative country", mkRat 6 10),
   ("classical", "orchestral", mkRat 8 10),
   ("classical", "baroque", mkRat 7 10),
   ("classical", "romantic", mkRat 7 10),
   ("orchestral", "symphonic", mkRat 8 10),
   ("baroque", "classical", mkRat 7 10),
   ("blues", "blues rock", mkRat 7 10),
   ("blues", "delta blues", mkRat 8 10),
   ("blues", "chicago blues", mkRat 8 10),
   ("blues rock", "hard blues", mkRat 6 10),
   ("reggae", "dub", mkRat 7 10),
   ("reggae", "ska", mkRat 5 10),
   ("indie", "indie rock", mkRat 8 10),
   ("indie", "alternative rock", mkRat 7 10),
   ("folk", "acoustic", mkRat 6 10),
   ("folk", "traditional folk", mkRat 6 10),
   ("metal", "heavy metal", mkRat 9 10),
   ("metal", "thrash metal", mkRat 8 10),
   ("metal", "death metal", mkRat 7 10),
   ("metal", "black metal", mkRat 6 10),
   ("gospel", "soul", mkRat 7 10),
   ("gospel", "r&b", mkRat 6 10),
   ("disco", "funk", mkRat 6 10),
   ("disco", "pop", mkRat 5 10),
   ("ambient", "new age", mkRat 5 10),
   ("ambient", "idm", mkRat 6 10),
   ("world", "afrobeat", mkRat 6 10),
   ("world", "latin", mkRat 5 10),
   ("world", "flamenco", mkRat 4 10),
   ("experimental", "avant garde", mkRat 7 10),
   ("experimental", "noise", mkRat 6 10),
   ("experimental", "free jazz", mkRat 6 10),
   ("punk", "hardcore punk", mkRat 7 10),
   ("pop", "boy band", mkRat 6 10),
   ("rock", "power pop", mkRat 6 10),
   ("house", "progressive", mkRat 6 10),
   ("techno", "house", mkRat 7 10),
   ("hip hop", "rap rock", mkRat 5 10),
   ("soul", "disco", mkRat 6 10),
   ("jazz", "latin jazz", mkRat 6 10),
   ("alternative", "indie", mkRat 8 10),
   ("progressive", "progressive rock", mkRat 7 10),
   ("progressive", "progressive house", mkRat 6 10),
   ("rock", "pop rock", mkRat 7 10),
   ("rock", "soft rock", mkRat 6 10),
   ("rock", "goth rock", mkRat 5 10),
   ("metal", "nu metal", mkRat 7 10),
   ("metal", "metalcore", mkRat 6 10),
   ("rap", "hip hop", mkRat 9 10),
   ("pop", "dance pop", mkRat 7 10),
   ("electronic", "synthwave", mkRat 5 10),
   ("electronic", "chillout", mkRat 5 10),
   ("rock", "acid rock", mkRat 6 10),
   ("jazz", "contemporary jazz", mkRat 6 10),
   ("funk", "soul funk", mkRat 8 10),
   ("country", "country pop", mkRat 6 10),
   ("reggae", "dub reggae", mkRat 8 10),
   ("indie", "indie pop", mkRat 7 10),
   ("metal", "thrash", mkRat 8 10),
   ("hip hop", "east coast hip hop", mkRat 7 10)]

/-- The relation-scan loop of `genreSimilarity`: first row matching the
pair in either orientation wins; no row means score 0. -/
def lookupRelation : List (String × String × ℚ) → String → String → ℚ
  | [], _, _ => 0
  | (x, y, s) :: rest, g1, g2 =>
    if (g1 = x ∧ g2 = y) ∨ (g1 = y ∧ g2 = x) then s else lookupRelation rest g1 g2

/-- `genreSimilarity` from id3Service.ts. -/
def genreSimilarity (genre1 genre2 : String) : ℚ :=
  let g1 := normalizeGenre genre1
  let g2 := normalizeGenre genre2
  if g1 = g2 then 1 else lookupRelation genreRelationships g1 g2

-- ===== Data model (src/unnamed/part_002, src/unnamed/part_003, musicCacheService.ts) =====

/-- `RadioStationCriteria` from types/radioStation: one weighted matching
rule.  The field `attr` embeds the source field named attribute (a
reserved word here); it is a plain string, matching the string-literal
union the source switches on. -/
structure RadioStationCriteria where
  attr : String
  value : String
  weight : ℚ
deriving DecidableEq, Repr

/-- `MusicLibraryEntry` from musicCacheService.ts: one cached audio file. -/
structure MusicLibraryEntry where
  id : String
  filePath : String
  fileName : String
  modifiedTime : Nat
  title : String
  artist : String
  album : String
  genre : String
  year : Nat
  mood : String
  duration : ℚ
deriving DecidableEq, Repr

/-- `RadioStation` with the full persisted record shape of the design
data model; the fields beyond those of types/radioStation (auto-generated,
temporary, all-music, image, last-played, favorite flags) are the ones the
callers in musicCacheService.ts and playbackService.ts read and write.
Absent JavaScript fields are embedded as `false` or `none`. -/
structure RadioStation where
  id : String
  name : String
  description : Option String
  criteria : List RadioStationCriteria
  createdAt : Nat
  updatedAt : Nat
  isAutoGenerated : Bool
  isTemporary : Bool
  isAllMusic : Bool
  imagePath : Option String
  lastPlayed : Option Nat
  isFavorite : Bool
deriving DecidableEq, Repr

-- ===== Radio station scorer (src/unnamed/part_002) =====

/-- Leading-digits value of a character list; `none` when the first
character is not a digit. -/
def digitsVal (l : List Char) : Option Nat :=
  match l.takeWhile Char.isDigit with
  | [] => none
  | ds => some (ds.foldl (fun a c => a * 10 + (c.toNat - 48)) 0)

/-- JavaScript `parseInt` on base-10 input: skip leading whitespace, read
an optional sign and then leading digits; `none` embeds `NaN`.  (The hex
prefix form never occurs in this codebase, which only parses decade
strings it produced itself.) -/
def jsParseInt (s : String) : Option Int :=
  match s.data.dropWhile Char.isWhitespace with
  | '-' :: rest => (digitsVal rest).map (fun n => -(n : Int))
  | '+' :: rest => (digitsVal rest).map (fun n => (n : Int))
  | rest => (digitsVal rest).map (fun n => (n : Int))

/-- `RadioStationService.matchString`: the string-match score in `[0,1]`.
An empty argument scores 0 (the only falsy string is the empty one); a
case-insensitive exact match scores 1; a criterion contained in the track
value scores `min 0.8 (lenC / lenT)`; a track value contained in the
criterion scores `min 0.5 (lenT / lenC)`; otherwise 0. -/
def matchString (trackValue criterionValue : String) : ℚ :=
  if trackValue = "" ∨ criterionValue = "" then 0
  else if jsToLower trackValue = jsToLower criterionValue then 1
  else
    let trackLower := jsToLower trackValue
    let criterionLower := jsToLower criterionValue
    if containsSub trackLower.data criterionLower.data then
      min (mkRat 8 10) ((criterionLower.length : ℚ) / (trackLower.length : ℚ))
    else if containsSub criterionLower.data trackLower.data then
      min (mkRat 5 10) ((trackLower.length : ℚ) / (criterionLower.length : ℚ))
    else 0

/-- One `Map.set` step on an insertion-ordered association list: update
the key in place when present (keys are unique by construction), append
otherwise. -/
def mapSet : List (String × ℚ) → String → ℚ → List (String × ℚ)
  | [], k, v => [(k, v)]
  | p :: t, k, v => if p.1 = k then (k, v) :: t else p :: mapSet t k v

/-- JavaScript `Map.get`, as an option: value at the first (and by
construction only) entry carrying the key. -/
def mapGet : List (String × ℚ) → String → Option ℚ
  | [], _ => none
  | p :: t, k => if p.1 = k then some p.2 else mapGet t k

/-- The weight map built by the loop of `normalizeWeights`: one `set` per
criterion keyed by its attribute (a later criterion with the same
attribute overwrites the stored weight), in source order. -/
def buildWeightMap (criteria : List RadioStationCriteria) : List (String × ℚ) :=
  criteria.foldl (fun m c => mapSet m c.attr c.weight) []

/-- The grand total of all criterion weights accumulated by the same loop. -/
def totalWeightOf (criteria : List RadioStationCriteria) : ℚ :=
  criteria.foldl (fun t c => t + c.weight) 0

/-- `RadioStationService.normalizeWeights`: divide every stored weight by
the grand total when the total is positive, otherwise leave the map as
built. -/
def normalizeWeights (criteria : List RadioStationCriteria) : List (String × ℚ) :=
  let m := buildWeightMap criteria
  let total := totalWeightOf criteria
  if 0 < total then m.map (fun p => (p.1, p.2 / total)) else m

/-- `RadioStationService.calculateAttributeMatch`: dispatch on the
criterion attribute; genre takes the best comma-split token match; decade
compares `floor(year / 10) * 10` with the parsed criterion value. -/
def calculateAttributeMatch (track : MusicLibraryEntry) (c : RadioStationCriteria) : ℚ :=
  if c.attr = "artist" then matchString track.artist c.value
  else if c.attr = "album" then matchString track.album c.value
  else if c.attr = "genre" then
    let trackGenres := (jsSplitChar ',' track.genre).map jsTrim
    trackGenres.foldl (fun best g =>
      let m := matchString g c.value
      if best < m then m else best) 0
  else if c.attr = "mood" then matchString track.mood c.value
  else if c.attr = "decade" then
    let trackDecade : Int := ((track.year / 10) * 10 : Nat)
    match jsParseInt c.value with
    | some d => if trackDecade = d then 1 else 0
    | none => 0
  else 0

/-- The per-criterion effective weight used by the scoring loop:
`criterionWeights.get(criterion.attr) || 0`. -/
def effectiveWeight (criteria : List RadioStationCriteria) (attr : String) : ℚ :=
  (mapGet (normalizeWeights criteria) attr).getD 0

/-- `RadioStationService.calculateTrackScore`: sum the attribute match of
each criterion times the normalized weight of its attribute, skipping
criteria whose effective weight is 0. -/
def calculateTrackScore (track : MusicLibraryEntry) (criteria : List RadioStationCriteria) : ℚ :=
  criteria.foldl (fun acc c =>
    let w := effectiveWeight criteria c.attr
    if w = 0 then acc else acc + calculateAttributeMatch track c * w) 0

/-- Weight of the last criterion carrying a given attribute, used to state
what the weight map actually holds: a later criterion with the same
attribute shadows every earlier one. -/
def lastWeightFor : List RadioStationCriteria → String → Option ℚ
  | [], _ => none
  | c :: rest, attr =>
    match lastWeightFor rest attr with
    | some w => some w
    | none => if c.attr = attr then some c.weight else none

/-- A track whose artist is "A" and album is "B", for the two-criterion
scoring example. -/
def c1ExampleTrack : MusicLibraryEntry :=
  { id := "1", filePath := "p", fileName := "p", modifiedTime := 0,
    title := "T", artist := "A", album := "B", genre := "", year := 0,
    mood := "", duration := 0 }

/-- The two-criterion list of the scoring example. -/
def c1ExampleCriteria : List RadioStationCriteria :=
  [⟨"artist", "A", 1⟩, ⟨"album", "B", 1⟩]

-- ===== Station store and update (src/unnamed/part_002) =====

/-- A partial station patch, the `Partial` record accepted by
`updateStation`; `none` embeds an absent (or explicitly undefined) field.
The callers in musicCacheService.ts and playbackService.ts supply
`imagePath` and `lastPlayed` patches. -/
structure StationPatch where
  name : Option String
  description : Option String
  criteria : Option (List RadioStationCriteria)
  isAutoGenerated : Option Bool
  isTemporary : Option Bool
  isAllMusic : Option Bool
  imagePath : Option String
  lastPlayed : Option Nat
  isFavorite : Option Bool
deriving DecidableEq, Repr

/-- The all-absent patch. -/
def emptyPatch : StationPatch :=
  ⟨none, none, none, none, none, none, none, none, none⟩

/-- IndexedDB `put` on the radio station store (primary key `id`):
replace the record with the same id, or append. -/
def putStation (store : List RadioStation) (st : RadioStation) : List RadioStation :=
  if store.any (fun x => x.id = st.id) then
    store.map (fun x => if x.id = st.id then st else x)
  else store ++ [st]

/-- `RadioStationService.updateStation`: look up the station by id, throw
a Station-not-found error when absent (leaving the store untouched), and
otherwise store the merged record.  Merging follows the source precisely:
`name` is taken from the patch only when supplied and non-empty (the
`updates.name || existing.name` idiom treats the empty string as absent),
`description` when supplied, `criteria` when supplied; `updatedAt` is set
to the current time; every other field — including a supplied `imagePath`
or `lastPlayed` — is copied from the existing record. -/
def updateStation (store : List RadioStation) (id : String) (updates : StationPatch)
    (now : Nat) : Except String RadioStation × List RadioStation :=
  match store.find? (fun s => s.id = id) with
  | none => (Except.error "Station not found", store)
  | some existing =>
    let updated : RadioStation :=
      { existing with
        name := match updates.name with
          | some n => if n = "" then existing.name else n
          | none => existing.name,
        description := match updates.description with
          | some d => some d
          | none => existing.description,
        criteria := (updates.criteria).getD existing.criteria,
        updatedAt := now }
    (Except.ok updated, putStation store updated)

/-- A persisted station with no image and no last-played stamp. -/
def c6Station : RadioStation :=
  { id := "station_1", name := "Jazz", description := none, criteria := [],
    createdAt := 0, updatedAt := 0, isAutoGenerated := false,
    isTemporary := false, isAllMusic := false, imagePath := none,
    lastPlayed := none, isFavorite := false }

/-- A patch supplying only an image path and a last-played stamp, the
shape sent by `assignImagesToStation` and `playStation`. -/
def c6Patch : StationPatch :=
  { emptyPatch with imagePath := some "/assets/jazz/1.jpg", lastPlayed := some 99 }

-- ===== Criteria derivation from example tracks (src/unnamed/part_002) =====

/-- One JavaScript `Map` increment of the tally built by
`calculateAverageCriteria`: a fresh key is appended with count 1 (the
source sets an empty record and immediately increments it). -/
def bumpKey : List (String × Nat) → String → List (String × Nat)
  | [], k => [(k, 1)]
  | p :: t, k => if p.1 = k then (p.1, p.2 + 1) :: t else p :: bumpKey t k

/-- Tally contribution of one track: one key per non-empty artist, album,
comma-split genre token, mood, and non-zero decade, in source order.  The
keys join the attribute and the raw value with a colon. -/
def collectTrack (m : List (String × Nat)) (track : MusicLibraryEntry) :
    List (String × Nat) :=
  let m1 := if track.artist ≠ "" then bumpKey m ("artist:" ++ track.artist) else m
  let m2 := if track.album ≠ "" then bumpKey m1 ("album:" ++ track.album) else m1
  let m3 := if track.genre ≠ "" then
      ((jsSplitChar ',' track.genre).map jsTrim).foldl
        (fun acc g => bumpKey acc ("genre:" ++ g)) m2
    else m2
  let m4 := if track.mood ≠ "" then bumpKey m3 ("mood:" ++ track.mood) else m3
  if track.year ≠ 0 then
    bumpKey m4 ("decade:" ++ toString ((track.year / 10) * 10))
  else m4

/-- The criterion a tally entry produces: the key is split on every colon
and destructured into its first two segments, so a value containing a
colon is truncated at it; the weight is the count over the seed size.  The
positivity test mirrors the source `if (weight > 0)` push guard. -/
def criterionOfKey (seedCount : Nat) (kv : String × Nat) : Option RadioStationCriteria :=
  let parts := jsSplitChar ':' kv.1
  let a := parts.getD 0 ""
  let v := parts.getD 1 ""
  let weight : ℚ := (kv.2 : ℚ) / (seedCount : ℚ)
  if 0 < weight then some ⟨a, v, weight⟩ else none

/-- The push step of the criteria loop: append the criterion of a tally
entry when it produces one. -/
def pushCriterion (seedCount : Nat) (acc : List RadioStationCriteria)
    (kv : String × Nat) : List RadioStationCriteria :=
  match criterionOfKey seedCount kv with
  | some c => acc ++ [c]
  | none => acc

/-- `RadioStationService.calculateAverageCriteria`: an empty seed list
returns the existing criteria unchanged; otherwise tally every attribute
value across the seeds and emit one criterion per distinct key. -/
def calculateAverageCriteria (tracks : List MusicLibraryEntry)
    (existingCriteria : List RadioStationCriteria) : List RadioStationCriteria :=
  if tracks = [] then existingCriteria
  else (tracks.foldl collectTrack []).foldl (pushCriterion tracks.length) []

/-- A seed track whose artist name contains a colon. -/
def acdcTrack : MusicLibraryEntry :=
  { id := "9", filePath := "f", fileName := "f", modifiedTime := 0,
    title := "T", artist := "AC:DC", album := "", genre := "", year := 0,
    mood := "", duration := 0 }

-- ===== Library cache sync (src/src/services/musicCacheService.ts) =====

/-- Tag metadata returned by the extractor; `none` fields are absent. -/
structure AudioMetadata where
  title : Option String
  artist : Option String
  album : Option String
  genre : Option (List String)
  year : Option Nat
  mood : Option String
  duration : Option ℚ
deriving DecidableEq, Repr

/-- The `value || default` idiom on an optional string: the default is
used when the field is absent or empty (the empty string is falsy). -/
def jsOrDefault (v : Option String) (d : String) : String :=
  match v with
  | some s => if s = "" then d else s
  | none => d

/-- Coercion of an integer to the signed 32-bit representative in
`[-2^31, 2^31)`, the effect of the JavaScript bitwise operators. -/
def toInt32 (n : Int) : Int := (n + 2147483648) % 4294967296 - 2147483648

/-- One step of the id hash: `hash = ((hash << 5) - hash) + char` followed
by the `hash & hash` coercion to a signed 32-bit integer. -/
def hashStep (h : Int) (c : Char) : Int :=
  toInt32 (toInt32 (h * 32) - h + (c.toNat : Int))

/-- `MusicCacheService.generateId`: the stringified 32-bit polynomial hash
of the file path over its UTF-16 code units. -/
def generateId (filePath : String) : String :=
  toString (filePath.data.foldl hashStep 0)

/-- The LibraryEntry built from one newly scanned file, with the default
fields of the source (`||` defaults; genre list joined with a comma and a
space). -/
def mkEntry (fileName : String) (md : AudioMetadata) (now : Nat) : MusicLibraryEntry :=
  { id := generateId fileName
    filePath := fileName
    fileName := fileName
    modifiedTime := now
    title := jsOrDefault md.title "Unknown Title"
    artist := jsOrDefault md.artist "Unknown Artist"
    album := jsOrDefault md.album "Unknown Album"
    genre := jsOrDefault (md.genre.map (fun l => String.intercalate ", " l)) ""
    year := md.year.getD 0
    mood := jsOrDefault md.mood ""
    duration := (md.duration).getD 0 }

/-- IndexedDB `put` on the music library store (primary key `id`):
replace the record with the same id, or append. -/
def putEntry (lib : List MusicLibraryEntry) (e : MusicLibraryEntry) :
    List MusicLibraryEntry :=
  if lib.any (fun x => x.id = e.id) then
    lib.map (fun x => if x.id = e.id then e else x)
  else lib ++ [e]

/-- The per-file loop of `updateCache` over the new-files list, carrying
the loop index and emitting one `(i + 1, total)` progress report per file
whose metadata extraction succeeds.  A failed extraction stores nothing
and reports nothing.  (Album-art storage touches only the separate art
store and is not modelled; no claim mentions it.) -/
def processNewFiles (extract : String → Option AudioMetadata) (now : Nat) (total : Nat) :
    List String → Nat → List MusicLibraryEntry →
      List MusicLibraryEntry × List (Nat × Nat)
  | [], _, lib => (lib, [])
  | f :: rest, i, lib =>
    match extract f with
    | some md =>
      let e := mkEntry f md now
      let r := processNewFiles extract now total rest (i + 1) (putEntry lib e)
      (r.1, (i + 1, total) :: r.2)
    | none => processNewFiles extract now total rest (i + 1) lib

/-- The new-files list of a sync pass: scanned names with no cached entry
at that file path. -/
def newFilesOf (lib : List MusicLibraryEntry) (scan : List String) : List String :=
  scan.filter (fun f => ¬ lib.any (fun e => e.filePath = f))

/-- `MusicCacheService.updateCache` over a cached library and the list of
scanned file names, returning the resulting library and the progress
reports in order.  Steps, as in the source: report `(0, scanned)`; delete
the ids of entries whose path left the scan; compute the new files and
report `(0, new)`; process each new file (storing its entry and reporting
once on success); finally report the `(0, 0)` reset.  The station
auto-discovery trigger touches only the station store and is modelled
separately. -/
def updateCache (lib : List MusicLibraryEntry) (scan : List String)
    (extract : String → Option AudioMetadata) (now : Nat) :
    List MusicLibraryEntry × List (Nat × Nat) :=
  let deletedIds := (lib.filter (fun e => ¬ scan.contains e.filePath)).map (fun e => e.id)
  let lib1 := lib.filter (fun e => ¬ deletedIds.contains e.id)
  let newFiles := newFilesOf lib scan
  let r := processNewFiles extract now newFiles.length newFiles 0 lib1
  (r.1, (0, scan.length) :: (0, newFiles.length) :: (r.2 ++ [(0, 0)]))

/-- Metadata with every field absent, extracted successfully. -/
def emptyMd : AudioMetadata := ⟨none, none, none, none, none, none, none⟩

/-- An extractor that succeeds on every file with empty metadata. -/
def extractAlways (_f : String) : Option AudioMetadata := some emptyMd

/-- The cached library of the progress counterexample: one entry for the
already known file. -/
def c8Lib : List MusicLibraryEntry := [mkEntry "a.mp3" emptyMd 0]

/-- The scan of the progress counterexample: the known file plus one new
file. -/
def c8Scan : List String := ["a.mp3", "b.mp3"]

/-- The file paths of a library, in store order. -/
def pathsOf (lib : List MusicLibraryEntry) : List String :=
  lib.map (fun e => e.filePath)

-- ===== Station auto-discovery (src/src/services/musicCacheService.ts) =====

/-- One `Map` push of the grouping pass: append the track to the list at
the key, creating the key at the end on first sight. -/
def mapPushTrack : List (String × List MusicLibraryEntry) → String → MusicLibraryEntry →
    List (String × List MusicLibraryEntry)
  | [], k, t => [(k, [t])]
  | p :: rest, k, t =>
    if p.1 = k then (p.1, p.2 ++ [t]) :: rest else p :: mapPushTrack rest k t

/-- The four grouping maps of `scanForRadioStations`, in insertion
order. -/
structure Groupings where
  genre : List (String × List MusicLibraryEntry)
  mood : List (String × List MusicLibraryEntry)
  decade : List (String × List MusicLibraryEntry)
  genreDecade : List (String × List MusicLibraryEntry)
deriving DecidableEq, Repr

/-- Grouping contribution of one track: every non-empty trimmed genre
token lowercased, the lowercased mood when non-empty, the decade (year 0
and negative years grouped as decade "0"), and every genre-token × decade
pair. -/
def addTrackToGroups (G : Groupings) (track : MusicLibraryEntry) : Groupings :=
  let genres := ((jsSplitChar ',' track.genre).map jsTrim).filter (fun g => 0 < g.length)
  let g := genres.foldl (fun m gen => mapPushTrack m (jsToLower gen) track) G.genre
  let moodKey := jsToLower track.mood
  let mo := if moodKey = "" then G.mood else mapPushTrack G.mood moodKey track
  let decadeKey := toString (if 0 < track.year then (track.year / 10) * 10 else 0)
  let d := mapPushTrack G.decade decadeKey track
  let gd := genres.foldl
    (fun m gen => mapPushTrack m (jsToLower gen ++ "|" ++ decadeKey) track) G.genreDecade
  ⟨g, mo, d, gd⟩

/-- The apostrophe-s suffix of the generated decade names, built from the
character code to keep the source text plain. -/
def aposS : String := String.singleton (Char.ofNat 39) ++ "s"

/-- `MusicCacheService.createCriteriaFromGroup`: the criteria attached to
a candidate station per grouping kind; hybrid genre+decade criteria weigh
0.7 each. -/
def createCriteriaFromGroup (attrName : String) (groupKey : String) :
    List RadioStationCriteria :=
  if attrName = "artist" then [⟨"artist", groupKey, 1⟩]
  else if attrName = "album" then
    let parts := jsSplitChar '|' groupKey
    let artist := parts.getD 0 ""
    let album := parts.getD 1 ""
    if artist ≠ "" ∧ album ≠ "" then
      [⟨"artist", artist, mkRat 7 10⟩, ⟨"album", album, 1⟩]
    else []
  else if attrName = "genre" then [⟨"genre", groupKey, 1⟩]
  else if attrName = "mood" then [⟨"mood", groupKey, 1⟩]
  else if attrName = "decade" then [⟨"decade", groupKey, 1⟩]
  else if attrName = "genre+decade" then
    let parts := jsSplitChar '|' groupKey
    let genre := parts.getD 0 ""
    let decade := parts.getD 1 ""
    if genre ≠ "" ∧ decade ≠ "" then
      [⟨"genre", genre, mkRat 7 10⟩, ⟨"decade", decade, mkRat 7 10⟩]
    else []
  else []

/-- The generated station name per grouping kind.  (The album arm never
runs: no album grouping is built; its undefined-segment template is
embedded with empty defaults.) -/
def stationNameFor (attrName : String) (groupKey : String) : String :=
  if attrName = "album" then
    let parts := jsSplitChar '|' groupKey
    (parts.getD 0 "") ++ " - " ++ (parts.getD 1 "")
  else if attrName = "genre" then "Genre: " ++ groupKey
  else if attrName = "mood" then "Mood: " ++ groupKey
  else if attrName = "decade" then "Decade: " ++ groupKey ++ aposS
  else if attrName = "genre+decade" then
    let parts := jsSplitChar '|' groupKey
    (parts.getD 0 "") ++ " (" ++ (parts.getD 1 "") ++ aposS ++ ")"
  else ""

/-- The name hash of `RadioStationService.generateId` (same polynomial as
the file-path hash). -/
def hashName (name : String) : Int := name.data.foldl hashStep 0

/-- `RadioStationService.createStation`: build the record with the hashed
name id and the current stamps and `put` it.  The constructed object
carries only the typed fields; the auto-generated and temporary flags the
discovery pass passes along are dropped by the source and embedded as
their absent defaults. -/
def createStation (store : List RadioStation) (name : String) (description : Option String)
    (criteria : List RadioStationCriteria) (now : Nat) : List RadioStation × RadioStation :=
  let st : RadioStation :=
    { id := "station_" ++ toString (hashName name), name := name,
      description := description, criteria := criteria, createdAt := now,
      updatedAt := now, isAutoGenerated := false, isTemporary := false,
      isAllMusic := false, imagePath := none, lastPlayed := none,
      isFavorite := false }
  (putStation store st, st)

/-- The static genre → image-path table of `assignImagesToStation`. -/
def genreImages : List (String × List String) :=
  [("blues", ["/assets/blues/1.jpg", "/assets/blues/2.jpg"]),
   ("classic rock", ["/assets/classic rock/1.jpg", "/assets/classic rock/2.jpg",
      "/assets/classic rock/3.jpg", "/assets/classic rock/4.jpg",
      "/assets/classic rock/5.jpg"]),
   ("country", ["/assets/country/1.jpg", "/assets/country/2.jpg",
      "/assets/country/3.jpg", "/assets/country/4.jpg", "/assets/country/5.jpg"]),
   ("dance", ["/assets/dance/1.jpg", "/assets/dance/2.jpg", "/assets/dance/3.jpg"]),
   ("disco", ["/assets/disco/1.jpg"]),
   ("electronic", ["/assets/electronic/1.jpg", "/assets/electronic/2.jpg"]),
   ("grunge", ["/assets/grunge/1.jpg", "/assets/grunge/2.jpg"]),
   ("hip-hop", ["/assets/hip-hop/1.jpg", "/assets/hip-hop/2.jpg"]),
   ("jazz", ["/assets/jazz/1.jpg", "/assets/jazz/2.jpg", "/assets/jazz/3.jpg",
      "/assets/jazz/4.jpg"]),
   ("metal", ["/assets/metal/1.jpg", "/assets/metal/2.jpg", "/assets/metal/3.jpg",
      "/assets/metal/4.jpg", "/assets/metal/5.jpg", "/assets/metal/6.jpg"]),
   ("new age", ["/assets/new age/1.jpg", "/assets/new age/2.jpg"]),
   ("oldies", ["/assets/oldies/1.jpg"]),
   ("rap", ["/assets/rap/1.jpg"])]

/-- JavaScript truthiness of an optional image path. -/
def imgTruthy : Option String → Bool
  | some p => p ≠ ""
  | none => false

/-- `MusicCacheService.assignImagesToStation`: collect the image paths
already assigned to auto-generated, non-all-music stations, look up the
image list for the station genre criterion, and patch the first
unassigned image onto the station through `updateStation` (which, per its
source, ignores the image patch and only bumps the update time). -/
def assignImagesToStation (store : List RadioStation) (station : RadioStation)
    (now : Nat) : List RadioStation :=
  let assigned := (store.filter
      (fun s => s.isAutoGenerated && !s.isAllMusic && imgTruthy s.imagePath)).map
    (fun s => s.imagePath.getD "")
  match station.criteria.find? (fun c => c.attr = "genre") with
  | none => store
  | some gc =>
    match (genreImages.find? (fun p => p.1 = jsToLower gc.value)).map (fun p => p.2) with
    | none => store
    | some imgs =>
      if 0 < imgs.length then
        match imgs.find? (fun i => ¬ assigned.contains i) with
        | some img =>
          (updateStation store station.id { emptyPatch with imagePath := some img } now).2
        | none => store
      else store

/-- Stable insertion into a count-ascending list. -/
def insertByCount (x : RadioStation × Nat) :
    List (RadioStation × Nat) → List (RadioStation × Nat)
  | [] => [x]
  | y :: rest => if x.2 < y.2 then x :: y :: rest else y :: insertByCount x rest

/-- The stable ascending sort of created stations by member count. -/
def sortByCount (l : List (RadioStation × Nat)) : List (RadioStation × Nat) :=
  l.foldr insertByCount []

/-- One candidate step of the discovery loop: a group of more than 20
tracks whose generated name is not already taken creates and stores a
station; name dedup consults only the stations fetched before the loop. -/
def stationStep (existingStations : List RadioStation) (now : Nat) (attrName : String)
    (acc : List RadioStation × List (RadioStation × Nat))
    (kv : String × List MusicLibraryEntry) :
    List RadioStation × List (RadioStation × Nat) :=
  if 20 < kv.2.length then
    let name := stationNameFor attrName kv.1
    if existingStations.any (fun s => s.name = name) then acc
    else
      let r := createStation acc.1 name (some name)
        (createCriteriaFromGroup attrName kv.1) now
      (r.1, acc.2 ++ [(r.2, kv.2.length)])
  else acc

/-- `MusicCacheService.scanForRadioStations`: a no-op below the 20-track
library threshold; otherwise build the four groupings, create one station
per qualifying group (dedup by generated name against the pre-fetched
station list), then assign images over the created batch in ascending
member count.  Returns the final station store and the created batch with
counts. -/
def scanForRadioStations (allTracks : List MusicLibraryEntry)
    (stationStore : List RadioStation) (now : Nat) :
    List RadioStation × List (RadioStation × Nat) :=
  if allTracks.length < 20 then (stationStore, [])
  else
    let G := allTracks.foldl addTrackToGroups ⟨[], [], [], []⟩
    let groupings := [("genre", G.genre), ("mood", G.mood), ("decade", G.decade),
                      ("genre+decade", G.genreDecade)]
    let res := groupings.foldl
      (fun acc ag => ag.2.foldl (stationStep stationStore now ag.1) acc)
      (stationStore, [])
    ((sortByCount res.2).foldl (fun st pair => assignImagesToStation st pair.1 now) res.1,
     res.2)

/-- One of 21 library tracks sharing the genre "Rock" with years spread
over two decades (11 in the 1990s, 10 in the 1980s) and no mood. -/
def c4Track (i : Nat) : MusicLibraryEntry :=
  { id := toString i, filePath := "t" ++ toString i, fileName := "t" ++ toString i,
    modifiedTime := 0, title := "T", artist := "A", album := "B", genre := "Rock",
    year := if i < 11 then 1991 else 1984, mood := "", duration := 0 }

/-- The 21-track all-Rock library with spread decades. -/
def c4Tracks : List MusicLibraryEntry := (List.range 21).map c4Track

/-- One of 21 library tracks sharing the genre "Rock" with year 0. -/
def c4ZeroTrack (i : Nat) : MusicLibraryEntry :=
  { id := toString i, filePath := "t" ++ toString i, fileName := "t" ++ toString i,
    modifiedTime := 0, title := "T", artist := "A", album := "B", genre := "Rock",
    year := 0, mood := "", duration := 0 }

/-- The 21-track all-Rock library whose tracks all land in decade "0". -/
def c4ZeroTracks : List MusicLibraryEntry := (List.range 21).map c4ZeroTrack

-- ===== THEOREMS =====

/-- Helper: the relation scan is symmetric in its two genre arguments. -/
theorem lookupRelation_symm (t : List (String × String × ℚ)) (g1 g2 : String) :
    lookupRelation t g1 g2 = lookupRelation t g2 g1 := by
  induction t with
  | nil => rfl
  | cons hd tl ih =>
    obtain ⟨x, y, s⟩ := hd
    simp only [lookupRelation]
    exact if_congr (by tauto) rfl ih

/-- C9: genreSimilarity is symmetric: normalization is applied to each
argument independently, the identical check is symmetric, and a relation
row matches a pair in either orientation with the same score. -/
theorem c9_genreSimilarity_symm (a b : String) :
    genreSimilarity a b = genreSimilarity b a := by
  unfold genreSimilarity
  exact if_congr eq_comm rfl (lookupRelation_symm genreRelationships _ _)

/-- C2: evaluation of `genreSimilarity` at the failing inputs.  Because
`normalizeGenre` returns the original argument when the lowercased form is
not an alias-table key, the relation lookup sees the raw spelling: the
hyphenated query scores 0 while the space spelling scores 0.9, and a
capitalized argument also scores 0 where the lowercase one scores 0.6, so
the result is not invariant under case or hyphen-versus-space changes. -/
theorem c2_genreSimilarity_not_normalized :
    genreSimilarity "Hip-Hop" "rap" = 0 ∧
    genreSimilarity "hip hop" "rap" = mkRat 9 10 ∧
    genreSimilarity "Rock" "metal" = 0 ∧
    genreSimilarity "rock" "metal" = mkRat 6 10 := by
  refine ⟨by decide, by decide, by decide, by decide⟩

-- ===== Scorer lemmas =====

/-- Helper: a `Map.set` followed by a `get` sees the new value at the set
key and is transparent at every other key. -/
theorem mapGet_mapSet (m : List (String × ℚ)) (k : String) (v : ℚ) (a : String) :
    mapGet (mapSet m k v) a = if a = k then some v else mapGet m a := by
  induction m with
  | nil =>
    by_cases h : a = k
    · subst h; simp [mapSet, mapGet]
    · have h2 : ¬ k = a := fun hh => h hh.symm
      simp [mapSet, mapGet, h, h2]
  | cons p t ih =>
    by_cases hpk : p.1 = k
    · by_cases hak : a = k
      · subst hak; simp [mapSet, hpk, mapGet]
      · have hka : ¬ k = a := fun hh => hak hh.symm
        have hpa : ¬ p.1 = a := by rw [hpk]; exact hka
        simp [mapSet, hpk, mapGet, hka, hpa, hak]
    · simp only [mapSet, if_neg hpk, mapGet]
      by_cases hpa : p.1 = a
      · have hak : ¬ a = k := fun hh => hpk (hpa.trans hh)
        simp [hpa, hak]
      · simp [hpa, ih]

/-- Helper: the weight map built by the normalization loop holds, for each
attribute, the weight of the last criterion carrying it. -/
theorem mapGet_build_aux (cs : List RadioStationCriteria) :
    ∀ (m : List (String × ℚ)) (attr : String),
      mapGet (cs.foldl (fun acc c => mapSet acc c.attr c.weight) m) attr =
        match lastWeightFor cs attr with
        | some w => some w
        | none => mapGet m attr := by
  induction cs with
  | nil => intro m attr; simp [lastWeightFor]
  | cons c cs ih =>
    intro m attr
    simp only [List.foldl_cons, lastWeightFor]
    rw [ih]
    cases h : lastWeightFor cs attr with
    | some w => simp
    | none =>
      by_cases hca : c.attr = attr
      · simp [hca, mapGet_mapSet]
      · have hac : ¬ (attr = c.attr) := fun hh => hca hh.symm
        simp [hca, mapGet_mapSet, hac]

/-- Helper: `buildWeightMap` looks up to the last weight per attribute. -/
theorem mapGet_buildWeightMap (cs : List RadioStationCriteria) (attr : String) :
    mapGet (buildWeightMap cs) attr = lastWeightFor cs attr := by
  have h := mapGet_build_aux cs [] attr
  cases hl : lastWeightFor cs attr <;> rw [hl] at h <;> simpa [buildWeightMap, mapGet] using h

/-- Helper: `get` commutes with dividing every stored weight. -/
theorem mapGet_mapDiv (m : List (String × ℚ)) (t : ℚ) (a : String) :
    mapGet (m.map (fun p => (p.1, p.2 / t))) a = (mapGet m a).map (fun w => w / t) := by
  induction m with
  | nil => simp [mapGet]
  | cons p m ih =>
    simp only [List.map_cons, mapGet]
    by_cases h : p.1 = a <;> simp [h, ih]

/-- Helper: folding the weight sum from an arbitrary accumulator. -/
theorem totalWeight_aux (cs : List RadioStationCriteria) :
    ∀ a : ℚ, cs.foldl (fun t c => t + c.weight) a =
      a + cs.foldl (fun t c => t + c.weight) 0 := by
  induction cs with
  | nil => intro a; simp
  | cons c cs ih =>
    intro a
    simp only [List.foldl_cons]
    rw [ih (a + c.weight), ih (0 + c.weight)]
    ring

/-- Helper: the grand total over a head criterion and a tail. -/
theorem totalWeight_cons (c : RadioStationCriteria) (cs : List RadioStationCriteria) :
    totalWeightOf (c :: cs) = c.weight + totalWeightOf cs := by
  simp only [totalWeightOf, List.foldl_cons]
  rw [totalWeight_aux cs (0 + c.weight)]
  ring

/-- Helper: a sum of non-negative weights is non-negative. -/
theorem totalWeight_nonneg (cs : List RadioStationCriteria)
    (h : ∀ x ∈ cs, 0 ≤ x.weight) : 0 ≤ totalWeightOf cs := by
  induction cs with
  | nil => simp [totalWeightOf]
  | cons c cs ih =>
    rw [totalWeight_cons]
    have h1 := h c (by simp)
    have h2 := ih (fun x hx => h x (by simp [hx]))
    linarith

/-- Helper: when non-negative weights sum to zero, every weight is zero. -/
theorem weight_zero_of_total_zero (cs : List RadioStationCriteria)
    (hn : ∀ x ∈ cs, 0 ≤ x.weight) (h0 : totalWeightOf cs = 0) :
    ∀ x ∈ cs, x.weight = 0 := by
  induction cs with
  | nil => simp
  | cons c cs ih =>
    rw [totalWeight_cons] at h0
    have h1 := hn c (by simp)
    have h2 := totalWeight_nonneg cs (fun x hx => hn x (by simp [hx]))
    intro x hx
    rcases List.mem_cons.mp hx with h | h
    · subst h; linarith
    · exact ih (fun y hy => hn y (by simp [hy])) (by linarith) x h

/-- Helper: a stored last weight comes from a member criterion. -/
theorem lastWeightFor_mem (cs : List RadioStationCriteria) (attr : String) (w : ℚ)
    (h : lastWeightFor cs attr = some w) : ∃ c ∈ cs, c.attr = attr ∧ c.weight = w := by
  induction cs with
  | nil => simp [lastWeightFor] at h
  | cons c cs ih =>
    simp only [lastWeightFor] at h
    cases hl : lastWeightFor cs attr with
    | some v =>
      rw [hl] at h
      obtain ⟨d, hd, hda, hdw⟩ := ih (by rw [hl, ← h])
      exact ⟨d, by simp [hd], hda, hdw⟩
    | none =>
      rw [hl] at h
      by_cases hca : c.attr = attr
      · rw [if_pos hca] at h
        exact ⟨c, by simp, hca, Option.some.inj h⟩
      · rw [if_neg hca] at h
        exact absurd h (by simp)

-- ===== C1 =====

/-- C1 counterexample: with two criteria sharing the attribute, the stored
effective weight is the LAST weight over the total (3 over 4), not the
summed weight over the total (which would be 1). -/
theorem c1_sum_claim_fails_on_duplicate_attribute :
    effectiveWeight [⟨"artist", "A", 1⟩, ⟨"artist", "B", 3⟩] "artist" = 3 / 4 ∧
    ((3 : ℚ) / 4) ≠ ((1 : ℚ) + 3) / ((1 : ℚ) + 3) := by
  constructor
  · have hb : buildWeightMap [⟨"artist", "A", 1⟩, ⟨"artist", "B", 3⟩] = [("artist", 3)] := by
      decide
    have ht : totalWeightOf [⟨"artist", "A", 1⟩, ⟨"artist", "B", 3⟩] = 4 := by
      simp only [totalWeightOf, List.foldl_cons, List.foldl_nil]
      norm_num
    simp only [effectiveWeight, normalizeWeights, hb, ht]
    rw [if_pos (by norm_num)]
    simp [mapGet]
  · norm_num

/-- C1 amended: the effective weight applied to a criterion is the weight
of the last criterion sharing its attribute divided by the grand total of
all criterion weights when that total is positive; with non-negative
weights and a zero total every effective weight is 0; and the
two-criterion example with exact artist and album matches scores 1. -/
theorem c1_effective_weight_last_over_total :
    (∀ (cs : List RadioStationCriteria) (attr : String), 0 < totalWeightOf cs →
        effectiveWeight cs attr = (lastWeightFor cs attr).getD 0 / totalWeightOf cs) ∧
    (∀ (cs : List RadioStationCriteria), totalWeightOf cs = 0 →
        (∀ x ∈ cs, 0 ≤ x.weight) → ∀ attr, effectiveWeight cs attr = 0) ∧
    calculateTrackScore c1ExampleTrack c1ExampleCriteria = 1 := by
  refine ⟨?_, ?_, ?_⟩
  · intro cs attr hpos
    simp only [effectiveWeight, normalizeWeights, if_pos hpos]
    rw [mapGet_mapDiv, mapGet_buildWeightMap]
    cases h : lastWeightFor cs attr with
    | some w => simp
    | none => simp
  · intro cs h0 hn attr
    simp only [effectiveWeight, normalizeWeights, h0]
    rw [if_neg (by norm_num), mapGet_buildWeightMap]
    cases h : lastWeightFor cs attr with
    | some w =>
      obtain ⟨c, hc, -, hw⟩ := lastWeightFor_mem cs attr w h
      have hz := weight_zero_of_total_zero cs hn h0 c hc
      simp [← hw, hz]
    | none => simp
  · have hwmap : normalizeWeights c1ExampleCriteria = [("artist", 1 / 2), ("album", 1 / 2)] := by
      have hb : buildWeightMap c1ExampleCriteria = [("artist", 1), ("album", 1)] := by decide
      have ht : totalWeightOf c1ExampleCriteria = 2 := by
        simp only [c1ExampleCriteria, totalWeightOf, List.foldl_cons, List.foldl_nil]
        norm_num
      simp only [normalizeWeights, hb, ht]
      rw [if_pos (by norm_num)]
      norm_num
    have e1 : effectiveWeight c1ExampleCriteria "artist" = 1 / 2 := by
      simp [effectiveWeight, hwmap, mapGet]
    have e2 : effectiveWeight c1ExampleCriteria "album" = 1 / 2 := by
      simp [effectiveWeight, hwmap, mapGet]
    have hca : calculateAttributeMatch c1ExampleTrack ⟨"artist", "A", 1⟩ = 1 := by decide
    have hcb : calculateAttributeMatch c1ExampleTrack ⟨"album", "B", 1⟩ = 1 := by decide
    have e1l := e1
    have e2l := e2
    simp only [c1ExampleCriteria] at e1l e2l
    simp only [calculateTrackScore, c1ExampleCriteria, List.foldl_cons, List.foldl_nil]
    simp only [e1l, e2l, hca, hcb]
    norm_num

/-- C1 witness: the positive-total branch of the amended statement applied
to a concrete one-criterion list. -/
theorem c1_effective_weight_witness :
    effectiveWeight [⟨"artist", "A", 2⟩] "artist" =
      (lastWeightFor [⟨"artist", "A", 2⟩] "artist").getD 0 /
        totalWeightOf [⟨"artist", "A", 2⟩] :=
  c1_effective_weight_last_over_total.1 [⟨"artist", "A", 2⟩] "artist"
    (by simp only [totalWeightOf, List.foldl_cons, List.foldl_nil]; norm_num)

-- ===== C5 =====

/-- Helper: the Boolean substring scan agrees with the structural
substring relation. -/
theorem containsSub_iff (hay sub : List Char) :
    containsSub hay sub = true ↔ SubstringOf sub hay := by
  induction hay with
  | nil =>
    simp only [containsSub, SubstringOf, List.isEmpty_iff]
    constructor
    · rintro rfl; exact ⟨[], [], rfl⟩
    · rintro ⟨pre, post, h⟩
      rcases List.append_eq_nil.mp (List.append_eq_nil.mp h.symm).1 with ⟨-, h2⟩
      exact h2
  | cons a t ih =>
    simp only [containsSub, Bool.or_eq_true, List.isPrefixOf_iff_prefix, ih]
    constructor
    · rintro (⟨rest, hrest⟩ | ⟨pre, post, hpp⟩)
      · exact ⟨[], rest, by simp [hrest]⟩
      · exact ⟨a :: pre, post, by simp [hpp]⟩
    · rintro ⟨pre, post, hpp⟩
      cases pre with
      | nil => exact Or.inl ⟨post, by simpa using hpp.symm⟩
      | cons b pre =>
        right
        rw [List.cons_append, List.cons_append, List.cons.injEq] at hpp
        exact ⟨pre, post, hpp.2⟩

/-- Helper: lowercasing preserves the length of a string. -/
theorem jsToLower_length (s : String) : (jsToLower s).length = s.length := by
  cases s with
  | mk data => show (data.map Char.toLower).length = data.length; exact List.length_map data Char.toLower

/-- C5: case analysis of the string-match score.  An empty argument scores
0; a case-insensitive equal pair scores 1; a criterion value occurring
inside the track value (case-insensitively) scores the length ratio capped
at 0.8; a track value occurring inside the criterion value scores the
length ratio capped at 0.5; anything else scores 0.  Lengths are those of
the original strings (lowercasing preserves length). -/
theorem c5_matchString_cases (a b : String) :
    ((a = "" ∨ b = "") → matchString a b = 0) ∧
    (¬ (a = "" ∨ b = "") → jsToLower a = jsToLower b → matchString a b = 1) ∧
    (¬ (a = "" ∨ b = "") → jsToLower a ≠ jsToLower b →
       SubstringOf (jsToLower b).data (jsToLower a).data →
       matchString a b = min (mkRat 8 10) ((b.length : ℚ) / (a.length : ℚ))) ∧
    (¬ (a = "" ∨ b = "") → jsToLower a ≠ jsToLower b →
       ¬ SubstringOf (jsToLower b).data (jsToLower a).data →
       SubstringOf (jsToLower a).data (jsToLower b).data →
       matchString a b = min (mkRat 5 10) ((a.length : ℚ) / (b.length : ℚ))) ∧
    (¬ (a = "" ∨ b = "") →
       ¬ SubstringOf (jsToLower b).data (jsToLower a).data →
       ¬ SubstringOf (jsToLower a).data (jsToLower b).data →
       matchString a b = 0) := by
  refine ⟨?_, ?_, ?_, ?_, ?_⟩
  · intro h
    simp only [matchString, if_pos h]
  · intro hne heq
    simp only [matchString, if_neg hne, if_pos heq]
  · intro hne hne2 hsub
    simp only [matchString, if_neg hne, if_neg hne2,
      if_pos ((containsSub_iff _ _).mpr hsub), jsToLower_length]
  · intro hne hne2 hns hsub
    simp only [matchString, if_neg hne, if_neg hne2,
      if_neg (fun hc => hns ((containsSub_iff _ _).mp hc)),
      if_pos ((containsSub_iff _ _).mpr hsub), jsToLower_length]
  · intro hne hns1 hns2
    by_cases heq : jsToLower a = jsToLower b
    · exact absurd (heq ▸ ⟨[], [], by simp⟩) hns1
    · simp only [matchString, if_neg hne, if_neg heq,
        if_neg (fun hc => hns1 ((containsSub_iff _ _).mp hc)),
        if_neg (fun hc => hns2 ((containsSub_iff _ _).mp hc))]

/-- C5 witness: the criterion-inside-track branch applied to the pair
("abc", "ab"), whose score is the uncapped ratio two thirds. -/
theorem c5_matchString_witness : matchString "abc" "ab" = 2 / 3 := by
  have h := (c5_matchString_cases "abc" "ab").2.2.1 (by decide) (by decide)
    ⟨[], ['c'], by decide⟩
  rw [h, (by decide : ("ab" : String).length = 2), (by decide : ("abc" : String).length = 3),
    Rat.mkRat_eq_divInt, Rat.divInt_eq_div]
  norm_num [min_def]

-- ===== C6 and C7 =====

/-- C6: evaluation at the failing input.  Updating an existing station
with a patch that supplies an image path and a last-played stamp persists
a record whose only change is the bumped update time: the supplied
`imagePath` and `lastPlayed` are dropped, contradicting the callers that
rely on those patches being merged. -/
theorem c6_updateStation_drops_image_and_lastPlayed :
    (updateStation [c6Station] "station_1" c6Patch 5).2 =
      [{ c6Station with updatedAt := 5 }] ∧
    c6Patch.imagePath = some "/assets/jazz/1.jpg" ∧
    c6Patch.lastPlayed = some 99 ∧
    ({ c6Station with updatedAt := 5 } : RadioStation).imagePath = none ∧
    ({ c6Station with updatedAt := 5 } : RadioStation).lastPlayed = none := by
  refine ⟨by decide, by decide, by decide, by decide, by decide⟩

/-- C7: updating a station id absent from the store fails with the
Station-not-found error and returns the store unchanged; no record is
created or modified. -/
theorem c7_updateStation_missing_id (store : List RadioStation) (id : String)
    (updates : StationPatch) (now : Nat)
    (h : store.find? (fun s => s.id = id) = none) :
    updateStation store id updates now = (Except.error "Station not found", store) := by
  simp only [updateStation, h]

/-- C7 witness: updating any id on the empty store fails and leaves the
store empty. -/
theorem c7_updateStation_missing_id_witness :
    updateStation [] "missing" emptyPatch 0 = (Except.error "Station not found", []) :=
  c7_updateStation_missing_id [] "missing" emptyPatch 0 rfl

-- ===== C10 =====

/-- Helper: no segment produced by the character split contains the
separator. -/
theorem splitChar_not_mem (sep : Char) :
    ∀ (l : List Char) (seg : List Char), seg ∈ splitChar sep l → sep ∉ seg := by
  intro l
  induction l with
  | nil =>
    intro seg hseg
    simp only [splitChar, List.mem_singleton] at hseg
    simp [hseg]
  | cons c rest ih =>
    intro seg hseg
    by_cases hc : c = sep
    · rw [splitChar, if_pos hc] at hseg
      rcases List.mem_cons.mp hseg with h | h
      · simp [h]
      · exact ih seg h
    · rw [splitChar, if_neg hc] at hseg
      cases hs : splitChar sep rest with
      | nil =>
        rw [hs] at hseg
        simp only [List.mem_singleton] at hseg
        subst hseg
        simp only [List.mem_singleton]
        exact fun h => hc h.symm
      | cons s ss =>
        rw [hs] at hseg
        rcases List.mem_cons.mp hseg with h | h
        · subst h
          intro hmem
          rcases List.mem_cons.mp hmem with h | h
          · exact hc h.symm
          · exact ih s (by rw [hs]; simp) h
        · exact ih seg (by rw [hs]; simp [h])

/-- Helper: a list position holds either a member or the default. -/
theorem getD_mem_or_default {α : Type} (d : α) :
    ∀ (l : List α) (i : Nat), l.getD i d ∈ l ∨ l.getD i d = d := by
  intro l
  induction l with
  | nil => intro i; simp
  | cons a t ih =>
    intro i
    cases i with
    | zero => exact Or.inl (by rw [List.getD_cons_zero]; simp)
    | succ j =>
      rw [List.getD_cons_succ]
      rcases ih j with h | h
      · exact Or.inl (List.mem_cons_of_mem a h)
      · exact Or.inr h

/-- Helper: any segment drawn from a colon split of a string is free of
colons, including the default at an out-of-range position. -/
theorem jsSplitChar_getD_no_colon (s : String) (i : Nat) :
    ':' ∉ ((jsSplitChar ':' s).getD i "").data := by
  rcases getD_mem_or_default "" (jsSplitChar ':' s) i with h | h
  · obtain ⟨seg, hseg, heq⟩ := List.mem_map.mp h
    rw [← heq]
    exact splitChar_not_mem ':' s.data seg hseg
  · rw [h]
    simp

/-- Helper: membership in the criteria fold, which pushes at most one
element per tally entry. -/
theorem foldl_pushCriterion_mem (n : Nat) (l : List (String × Nat)) :
    ∀ (acc : List RadioStationCriteria) (x : RadioStationCriteria),
      (x ∈ l.foldl (pushCriterion n) acc ↔
        x ∈ acc ∨ ∃ e ∈ l, criterionOfKey n e = some x) := by
  induction l with
  | nil => intro acc x; simp
  | cons e l ih =>
    intro acc x
    simp only [List.foldl_cons]
    cases hg : criterionOfKey n e with
    | some b =>
      rw [show pushCriterion n acc e = acc ++ [b] from by simp [pushCriterion, hg]]
      rw [ih]
      constructor
      · rintro (h | ⟨f, hf, hgf⟩)
        · rcases List.mem_append.mp h with h2 | h2
          · exact Or.inl h2
          · refine Or.inr ⟨e, List.mem_cons_self e l, ?_⟩
            rw [hg, List.mem_singleton.mp h2]
        · exact Or.inr ⟨f, List.mem_cons_of_mem e hf, hgf⟩
      · rintro (h | ⟨f, hf, hgf⟩)
        · exact Or.inl (List.mem_append.mpr (Or.inl h))
        · rcases List.mem_cons.mp hf with rfl | hf2
          · rw [hg] at hgf
            refine Or.inl (List.mem_append.mpr (Or.inr ?_))
            rw [List.mem_singleton]
            exact (Option.some.inj hgf).symm
          · exact Or.inr ⟨f, hf2, hgf⟩
    | none =>
      rw [show pushCriterion n acc e = acc from by simp [pushCriterion, hg]]
      rw [ih]
      constructor
      · rintro (h | ⟨f, hf, hgf⟩)
        · exact Or.inl h
        · exact Or.inr ⟨f, List.mem_cons_of_mem e hf, hgf⟩
      · rintro (h | ⟨f, hf, hgf⟩)
        · exact Or.inl h
        · rcases List.mem_cons.mp hf with rfl | hf2
          · rw [hg] at hgf; cases hgf
          · exact Or.inr ⟨f, hf2, hgf⟩

/-- C10: the criteria derived from a non-empty seed list carry values with
no colon in them — the attribute:value key is split on every colon and
only the first two segments survive — and in particular a seed track with
artist "AC:DC" yields the single criterion artist:"AC" with weight 1. -/
theorem c10_colon_key_truncates_value :
    (∀ (tracks : List MusicLibraryEntry) (existing : List RadioStationCriteria)
        (c : RadioStationCriteria), tracks ≠ [] →
        c ∈ calculateAverageCriteria tracks existing → ':' ∉ c.value.data) ∧
    calculateAverageCriteria [acdcTrack] [] = [⟨"artist", "AC", 1⟩] := by
  constructor
  · intro tracks existing c htr hc
    rw [calculateAverageCriteria, if_neg htr] at hc
    rcases (foldl_pushCriterion_mem tracks.length
        (tracks.foldl collectTrack []) [] c).mp hc with h | ⟨kv, -, hkv⟩
    · cases h
    · rw [criterionOfKey] at hkv
      by_cases hw : (0 : ℚ) < (kv.2 : ℚ) / (tracks.length : ℚ)
      · rw [if_pos hw] at hkv
        have hv := congrArg RadioStationCriteria.value (Option.some.inj hkv)
        rw [← hv]
        exact jsSplitChar_getD_no_colon kv.1 1
      · rw [if_neg hw] at hkv
        cases hkv
  · have htally : ([acdcTrack].foldl collectTrack []) = [("artist:AC:DC", 1)] := by decide
    have hparts : jsSplitChar ':' "artist:AC:DC" = ["artist", "AC", "DC"] := by decide
    rw [calculateAverageCriteria, if_neg (by simp)]
    rw [htally]
    simp only [List.foldl_cons, List.foldl_nil, pushCriterion, criterionOfKey, hparts,
      List.length_singleton]
    norm_num

/-- C10 witness: the colon-free property applied to the derived criterion
of the "AC:DC" seed track. -/
theorem c10_colon_key_witness : ':' ∉ ("AC" : String).data :=
  c10_colon_key_truncates_value.1 [acdcTrack] [] ⟨"artist", "AC", 1⟩ (by simp)
    (by rw [c10_colon_key_truncates_value.2]; exact List.mem_singleton.mpr rfl)

-- ===== C8 =====

/-- Helper: the per-file loop reports, from index `i`: every report
carries the fixed total and a current in `(i, i + files]`; currents are
strictly increasing; and there is exactly one report per file whose
extraction succeeds. -/
theorem processNewFiles_events (extract : String → Option AudioMetadata)
    (now : Nat) (total : Nat) :
    ∀ (files : List String) (i : Nat) (lib : List MusicLibraryEntry),
      (∀ ev ∈ (processNewFiles extract now total files i lib).2,
          ev.2 = total ∧ i + 1 ≤ ev.1 ∧ ev.1 ≤ i + files.length) ∧
      ((processNewFiles extract now total files i lib).2.map Prod.fst).Pairwise (· < ·) ∧
      (processNewFiles extract now total files i lib).2.length =
        (files.filter (fun f => (extract f).isSome)).length := by
  intro files
  induction files with
  | nil => intro i lib; simp [processNewFiles]
  | cons f rest ih =>
    intro i lib
    cases he : extract f with
    | some md =>
      have hrec := ih (i + 1) (putEntry lib (mkEntry f md now))
      simp only [processNewFiles, he]
      refine ⟨?_, ?_, ?_⟩
      · intro ev hev
        rcases List.mem_cons.mp hev with rfl | hev
        · exact ⟨rfl, le_refl _, by simp only [List.length_cons]; omega⟩
        · obtain ⟨h1, h2, h3⟩ := hrec.1 ev hev
          exact ⟨h1, by omega, by simp only [List.length_cons]; omega⟩
      · rw [List.map_cons]
        rw [List.pairwise_cons]
        refine ⟨?_, hrec.2.1⟩
        intro y hy
        obtain ⟨ev, hev, rfl⟩ := List.mem_map.mp hy
        have := (hrec.1 ev hev).2.1
        omega
      · simp only [List.length_cons, List.filter_cons, he, Option.isSome_some, if_true,
          hrec.2.2]
    | none =>
      have hrec := ih (i + 1) lib
      simp only [processNewFiles, he]
      refine ⟨?_, hrec.2.1, ?_⟩
      · intro ev hev
        obtain ⟨h1, h2, h3⟩ := hrec.1 ev hev
        exact ⟨h1, by omega, by simp only [List.length_cons]; omega⟩
      · rw [hrec.2.2]
        simp [List.filter_cons, he]

/-- C8 amended: within one sync pass the progress reports are, in order: a
`(0, scanned-file-count)` report (over the FULL scan, not the new-files
set), a `(0, new-file-count)` report, then exactly one `(current,
new-file-count)` report per successfully extracted new file with strictly
increasing currents in `[1, new-file-count]`, and the terminal `(0, 0)`
reset after all of them.  Files whose extraction fails produce no
report. -/
theorem c8_progress_reports (lib : List MusicLibraryEntry) (scan : List String)
    (extract : String → Option AudioMetadata) (now : Nat) :
    (updateCache lib scan extract now).2 =
      (0, scan.length) :: (0, (newFilesOf lib scan).length) ::
        ((updateCache lib scan extract now).2.tail.tail.dropLast ++ [(0, 0)]) ∧
    (∀ ev ∈ (updateCache lib scan extract now).2.tail.tail.dropLast,
        ev.2 = (newFilesOf lib scan).length ∧ 1 ≤ ev.1 ∧
          ev.1 ≤ (newFilesOf lib scan).length) ∧
    ((updateCache lib scan extract now).2.tail.tail.dropLast.map Prod.fst).Pairwise
      (fun a b => a < b) ∧
    (updateCache lib scan extract now).2.tail.tail.dropLast.length =
      ((newFilesOf lib scan).filter (fun f => (extract f).isSome)).length := by
  have hdrop : (updateCache lib scan extract now).2.tail.tail.dropLast =
      (processNewFiles extract now (newFilesOf lib scan).length (newFilesOf lib scan) 0
        (lib.filter (fun e =>
          ¬ ((lib.filter (fun e2 => ¬ scan.contains e2.filePath)).map
              (fun e2 => e2.id)).contains e.id))).2 := by
    show ((processNewFiles extract now (newFilesOf lib scan).length (newFilesOf lib scan) 0
        _).2 ++ [(0, 0)]).dropLast = _
    rw [List.dropLast_concat]
  have hev := processNewFiles_events extract now (newFilesOf lib scan).length
    (newFilesOf lib scan) 0
    (lib.filter (fun e =>
      ¬ ((lib.filter (fun e2 => ¬ scan.contains e2.filePath)).map
          (fun e2 => e2.id)).contains e.id))
  refine ⟨?_, ?_, ?_, ?_⟩
  · rw [hdrop]; rfl
  · rw [hdrop]
    intro ev hmem
    obtain ⟨h1, h2, h3⟩ := hev.1 ev hmem
    exact ⟨h1, h2, by omega⟩
  · rw [hdrop]; exact hev.2.1
  · rw [hdrop]; exact hev.2.2

/-- C8 counterexample: with one cached file and a scan holding it plus one
new file, the reports are `(0,2), (0,1), (1,1), (0,0)`: the first
non-terminal report carries the full scan count 2 as its total, not the
new-files count 1, and there are two initial reports rather than exactly
one report per processed file. -/
theorem c8_total_is_scan_count_counterexample :
    (updateCache c8Lib c8Scan extractAlways 0).2 = [(0, 2), (0, 1), (1, 1), (0, 0)] ∧
    (newFilesOf c8Lib c8Scan).length = 1 := by
  refine ⟨by decide, by decide⟩

-- ===== C3 =====

/-- Helper: Boolean membership on string lists. -/
theorem contains_true_iff (l : List String) (a : String) : l.contains a = true ↔ a ∈ l := by
  simp [List.contains, List.elem_eq_mem]

/-- Helper: the deletion phase keeps exactly the cached entries whose file
path is still in the scan, provided ids are the path hashes, and the hash
is injective on the cached paths. -/
theorem deletion_keeps_scanned (lib : List MusicLibraryEntry) (scan : List String)
    (hwf : ∀ e ∈ lib, e.id = generateId e.filePath)
    (hinj : ∀ p ∈ pathsOf lib, ∀ q ∈ pathsOf lib, generateId p = generateId q → p = q) :
    lib.filter (fun e =>
        ¬ ((lib.filter (fun e2 => ¬ scan.contains e2.filePath)).map
            (fun e2 => e2.id)).contains e.id) =
      lib.filter (fun e => scan.contains e.filePath) := by
  apply List.filter_congr
  intro e he
  by_cases hs : scan.contains e.filePath = true
  · rw [hs]
    apply decide_eq_true
    intro hmem
    rw [contains_true_iff] at hmem
    obtain ⟨e2, hf2, hid⟩ := List.mem_map.mp hmem
    have h2 := List.mem_filter.mp hf2
    have hsc2 : ¬ scan.contains e2.filePath = true := by
      have h22 := h2.2
      simpa using h22
    have hp : e2.filePath = e.filePath := by
      apply hinj e2.filePath (List.mem_map_of_mem _ h2.1) e.filePath (List.mem_map_of_mem _ he)
      rw [← hwf e2 h2.1, ← hwf e he]
      exact hid
    rw [hp] at hsc2
    exact hsc2 hs
  · have hs2 : scan.contains e.filePath = false := by
      cases hb : scan.contains e.filePath
      · rfl
      · exact absurd hb hs
    rw [hs2, decide_eq_false_iff_not, not_not, contains_true_iff]
    refine List.mem_map.mpr ⟨e, List.mem_filter.mpr ⟨he, ?_⟩, rfl⟩
    apply decide_eq_true
    intro hmem
    rw [hs2] at hmem
    cases hmem

/-- Helper: one store `put` of a fresh entry whose id is its path hash:
well-formedness, distinctness of paths, and the path set are preserved,
the put path being adjoined. -/
theorem putEntry_spec (relevant : List String)
    (hinj : ∀ p ∈ relevant, ∀ q ∈ relevant, generateId p = generateId q → p = q)
    (lib : List MusicLibraryEntry) (f : String) (md : AudioMetadata) (now : Nat)
    (hf : f ∈ relevant)
    (hwf : ∀ e ∈ lib, e.id = generateId e.filePath ∧ e.filePath ∈ relevant)
    (hnd : (pathsOf lib).Nodup) :
    (∀ e ∈ putEntry lib (mkEntry f md now),
        e.id = generateId e.filePath ∧ e.filePath ∈ relevant) ∧
    (pathsOf (putEntry lib (mkEntry f md now))).Nodup ∧
    (∀ p, p ∈ pathsOf (putEntry lib (mkEntry f md now)) ↔ p ∈ pathsOf lib ∨ p = f) := by
  by_cases hany : lib.any (fun x => x.id = (mkEntry f md now).id) = true
  · obtain ⟨x, hx, hxid⟩ := List.any_eq_true.mp hany
    have hxid2 : x.id = generateId f := by
      simpa [mkEntry] using of_decide_eq_true hxid
    have hxpath : x.filePath = f := by
      apply hinj x.filePath (hwf x hx).2 f hf
      rw [← (hwf x hx).1, hxid2]
    have hput : putEntry lib (mkEntry f md now) =
        lib.map (fun a => if a.id = (mkEntry f md now).id then mkEntry f md now else a) := by
      rw [putEntry, if_pos hany]
    have hpathsmk : (mkEntry f md now).filePath = f := rfl
    have hpaths : pathsOf (putEntry lib (mkEntry f md now)) = pathsOf lib := by
      rw [hput]
      simp only [pathsOf, List.map_map]
      apply List.map_congr_left
      intro a ha
      by_cases haid : a.id = (mkEntry f md now).id
      · have hapath : a.filePath = f := by
          apply hinj a.filePath (hwf a ha).2 f hf
          rw [← (hwf a ha).1]
          simpa [mkEntry] using haid
        simp only [Function.comp_apply, if_pos haid, hpathsmk, hapath]
      · simp only [Function.comp_apply, if_neg haid]
    refine ⟨?_, ?_, ?_⟩
    · intro e hemem
      rw [hput] at hemem
      obtain ⟨a, ha, rfl⟩ := List.mem_map.mp hemem
      by_cases haid : a.id = (mkEntry f md now).id
      · simp only [if_pos haid]
        refine ⟨rfl, ?_⟩
        rw [hpathsmk]
        exact hf
      · simp only [if_neg haid]
        exact hwf a ha
    · rw [hpaths]; exact hnd
    · intro p
      rw [hpaths]
      constructor
      · exact Or.inl
      · rintro (h | rfl)
        · exact h
        · rw [← hxpath]; exact List.mem_map_of_mem _ hx
  · have hput : putEntry lib (mkEntry f md now) = lib ++ [mkEntry f md now] := by
      rw [putEntry, if_neg hany]
    have hpathsmk : (mkEntry f md now).filePath = f := rfl
    have hpaths : pathsOf (putEntry lib (mkEntry f md now)) = pathsOf lib ++ [f] := by
      rw [hput]
      simp [pathsOf, hpathsmk]
    have hfnot : f ∉ pathsOf lib := by
      intro hmem
      obtain ⟨x, hx, hxp⟩ := List.mem_map.mp hmem
      apply hany
      refine List.any_eq_true.mpr ⟨x, hx, ?_⟩
      apply decide_eq_true
      show x.id = (mkEntry f md now).id
      rw [(hwf x hx).1, hxp]
      rfl
    refine ⟨?_, ?_, ?_⟩
    · intro e hemem
      rw [hput] at hemem
      rcases List.mem_append.mp hemem with h | h
      · exact hwf e h
      · rw [List.mem_singleton.mp h]
        refine ⟨rfl, ?_⟩
        rw [hpathsmk]
        exact hf
    · rw [hpaths, List.nodup_append]
      refine ⟨hnd, List.nodup_singleton f, ?_⟩
      intro a ha ha2
      rw [List.mem_singleton.mp ha2] at ha
      exact hfnot ha
    · intro p
      rw [hpaths]
      simp

/-- Helper: the per-file loop preserves id well-formedness and path
distinctness, and its final path set is the initial one together with the
processed files, when every file extracts successfully and the hash is
injective on the relevant paths. -/
theorem processNewFiles_lib (extract : String → Option AudioMetadata) (now total : Nat)
    (relevant : List String)
    (hinj : ∀ p ∈ relevant, ∀ q ∈ relevant, generateId p = generateId q → p = q) :
    ∀ (files : List String) (i : Nat) (lib : List MusicLibraryEntry),
      (∀ f ∈ files, f ∈ relevant ∧ (extract f).isSome = true) →
      (∀ e ∈ lib, e.id = generateId e.filePath ∧ e.filePath ∈ relevant) →
      (pathsOf lib).Nodup →
      (∀ e ∈ (processNewFiles extract now total files i lib).1,
          e.id = generateId e.filePath ∧ e.filePath ∈ relevant) ∧
      (pathsOf (processNewFiles extract now total files i lib).1).Nodup ∧
      (∀ p, p ∈ pathsOf (processNewFiles extract now total files i lib).1 ↔
          p ∈ pathsOf lib ∨ p ∈ files) := by
  intro files
  induction files with
  | nil =>
    intro i lib hf hwf hnd
    refine ⟨hwf, hnd, ?_⟩
    intro p
    simp [processNewFiles]
  | cons f rest ih =>
    intro i lib hf hwf hnd
    have hff := hf f (List.mem_cons_self f rest)
    cases he : extract f with
    | none =>
      rw [he] at hff
      simp at hff
    | some md =>
      simp only [processNewFiles, he]
      have hps := putEntry_spec relevant hinj lib f md now hff.1 hwf hnd
      have hrec := ih (i + 1) (putEntry lib (mkEntry f md now))
        (fun g hg => hf g (List.mem_cons_of_mem f hg)) hps.1 hps.2.1
      refine ⟨hrec.1, hrec.2.1, ?_⟩
      intro p
      rw [hrec.2.2 p, hps.2.2 p, List.mem_cons]
      tauto

/-- Helper: with distinct paths, a present path is matched by exactly one
entry. -/
theorem filter_path_length_one :
    ∀ (L : List MusicLibraryEntry) (f : String),
      (pathsOf L).Nodup → f ∈ pathsOf L →
      (L.filter (fun e => e.filePath = f)).length = 1 := by
  intro L
  induction L with
  | nil =>
    intro f _ h
    simp [pathsOf] at h
  | cons e t ih =>
    intro f hnd hmem
    have hnd2 : e.filePath ∉ pathsOf t ∧ (pathsOf t).Nodup := by
      have h2 : (e.filePath :: pathsOf t).Nodup := by simpa [pathsOf] using hnd
      exact List.nodup_cons.mp h2
    by_cases hef : e.filePath = f
    · rw [List.filter_cons_of_pos (by simpa using hef)]
      have hz : t.filter (fun x => x.filePath = f) = [] := by
        apply List.filter_eq_nil_iff.mpr
        intro x hx
        simp only [decide_eq_true_eq]
        intro hxf
        apply hnd2.1
        rw [hef, ← hxf]
        exact List.mem_map_of_mem _ hx
      rw [hz]
      rfl
    · rw [List.filter_cons_of_neg (by simpa using hef)]
      apply ih f hnd2.2
      have h3 : f ∈ e.filePath :: pathsOf t := by simpa [pathsOf] using hmem
      rcases List.mem_cons.mp h3 with h | h
      · exact absurd h.symm hef
      · exact h

/-- C3 amended: after a sync pass in which every scanned file extracts
successfully, provided the cached library is well formed (each id is the
hash of its path, paths distinct) and the id hash is injective on the
scanned and cached paths, every scanned file has exactly one entry with
its path and every surviving entry has a scanned path.  (Without the
injectivity hypothesis the invariant fails, see the collision
counterexample.) -/
theorem c3_sync_library_invariant (lib : List MusicLibraryEntry) (scan : List String)
    (extract : String → Option AudioMetadata) (now : Nat)
    (hwf : ∀ e ∈ lib, e.id = generateId e.filePath)
    (hnd : (pathsOf lib).Nodup)
    (hinj : ∀ p ∈ scan ++ pathsOf lib, ∀ q ∈ scan ++ pathsOf lib,
        generateId p = generateId q → p = q)
    (hext : ∀ f ∈ scan, (extract f).isSome = true) :
    (∀ f ∈ scan,
        ((updateCache lib scan extract now).1.filter
          (fun e => e.filePath = f)).length = 1) ∧
    (∀ e ∈ (updateCache lib scan extract now).1, e.filePath ∈ scan) := by
  have hinjlib : ∀ p ∈ pathsOf lib, ∀ q ∈ pathsOf lib,
      generateId p = generateId q → p = q := by
    intro p hp q hq
    exact hinj p (List.mem_append.mpr (Or.inr hp)) q (List.mem_append.mpr (Or.inr hq))
  have hfst : (updateCache lib scan extract now).1 =
      (processNewFiles extract now (newFilesOf lib scan).length (newFilesOf lib scan) 0
        (lib.filter (fun e =>
          ¬ ((lib.filter (fun e2 => ¬ scan.contains e2.filePath)).map
              (fun e2 => e2.id)).contains e.id))).1 := rfl
  rw [deletion_keeps_scanned lib scan hwf hinjlib] at hfst
  have hwf1 : ∀ e ∈ lib.filter (fun e => scan.contains e.filePath),
      e.id = generateId e.filePath ∧ e.filePath ∈ scan ++ pathsOf lib := by
    intro e he
    have h1 := List.mem_of_mem_filter he
    exact ⟨hwf e h1, List.mem_append.mpr (Or.inr (List.mem_map_of_mem _ h1))⟩
  have hnd1 : (pathsOf (lib.filter (fun e => scan.contains e.filePath))).Nodup := by
    apply List.Nodup.sublist _ hnd
    exact List.Sublist.map _ (List.filter_sublist lib)
  have hfiles : ∀ f ∈ newFilesOf lib scan,
      f ∈ scan ++ pathsOf lib ∧ (extract f).isSome = true := by
    intro f hfmem
    have h1 := List.mem_of_mem_filter hfmem
    exact ⟨List.mem_append.mpr (Or.inl h1), hext f h1⟩
  have hmain := processNewFiles_lib extract now (newFilesOf lib scan).length
    (scan ++ pathsOf lib) hinj (newFilesOf lib scan) 0
    (lib.filter (fun e => scan.contains e.filePath)) hfiles hwf1 hnd1
  have hsub1 : ∀ p, p ∈ pathsOf (lib.filter (fun e => scan.contains e.filePath)) → p ∈ scan := by
    intro p hp
    obtain ⟨x, hx, rfl⟩ := List.mem_map.mp hp
    exact (contains_true_iff _ _).mp (List.mem_filter.mp hx).2
  constructor
  · intro f hfscan
    rw [hfst]
    apply filter_path_length_one _ f hmain.2.1
    rw [hmain.2.2 f]
    by_cases hfl : f ∈ pathsOf lib
    · left
      obtain ⟨x, hx, rfl⟩ := List.mem_map.mp hfl
      refine List.mem_map_of_mem _ (List.mem_filter.mpr ⟨hx, ?_⟩)
      exact (contains_true_iff _ _).mpr hfscan
    · right
      refine List.mem_filter.mpr ⟨hfscan, ?_⟩
      apply decide_eq_true
      intro hany
      obtain ⟨x, hx, hxf⟩ := List.any_eq_true.mp hany
      apply hfl
      rw [← of_decide_eq_true hxf]
      exact List.mem_map_of_mem _ hx
  · intro e hemem
    rw [hfst] at hemem
    have hp := (hmain.2.2 e.filePath).mp (List.mem_map_of_mem _ hemem)
    rcases hp with h | h
    · exact hsub1 _ h
    · exact List.mem_of_mem_filter h

/-- C3 counterexample: the id hash collides on the distinct names "Aa.mp3"
and "BB.mp3"; syncing an empty cache against a scan holding both (with
extraction succeeding everywhere) leaves no entry at all for "Aa.mp3" —
the second put silently overwrote it — refuting the unconditional
exactly-one-entry claim. -/
theorem c3_hash_collision_counterexample :
    generateId "Aa.mp3" = generateId "BB.mp3" ∧
    ("Aa.mp3" : String) ≠ "BB.mp3" ∧
    ((updateCache [] ["Aa.mp3", "BB.mp3"] extractAlways 0).1.filter
        (fun e => e.filePath = "Aa.mp3")).length = 0 := by
  refine ⟨by decide, by decide, by decide⟩

/-- C3 witness: the amended invariant applied to an empty cache and a
one-file scan. -/
theorem c3_sync_library_invariant_witness :
    ((updateCache [] ["a.mp3"] extractAlways 0).1.filter
        (fun e => e.filePath = "a.mp3")).length = 1 :=
  (c3_sync_library_invariant [] ["a.mp3"] extractAlways 0 (by simp) (by simp [pathsOf])
    (by
      intro p hp q hq _
      simp only [pathsOf, List.map_nil, List.append_nil, List.mem_singleton] at hp hq
      rw [hp, hq])
    (by intro f _; rfl)).1 "a.mp3" (List.mem_singleton.mpr rfl)

-- ===== C4 =====

set_option maxRecDepth 100000 in
/-- C4 amended: on the 21-track all-Rock library whose years are spread so
that no decade or genre-decade group exceeds 20 tracks, auto-discovery
creates exactly one station, the "Genre: rock" station with the single
criterion genre:"rock" of weight 1.0 (the record built by createStation at
that name), and running discovery again against the resulting station
store creates zero new stations, the generated name being taken. -/
theorem c4_auto_discovery_genre_station :
    (scanForRadioStations c4Tracks [] 0).2 =
      [((createStation [] "Genre: rock" (some "Genre: rock") [⟨"genre", "rock", 1⟩] 0).2,
        21)] ∧
    (scanForRadioStations c4Tracks (scanForRadioStations c4Tracks [] 0).1 0).2 = [] := by
  refine ⟨by decide, by decide⟩

set_option maxRecDepth 100000 in
/-- C4 counterexample: on a 21-track library all sharing the single genre
"Rock" but all in one decade (year 0), auto-discovery creates three
stations — genre, decade, and genre-decade — not exactly one. -/
theorem c4_single_decade_three_stations :
    (∀ t ∈ c4ZeroTracks, t.genre = "Rock") ∧
    c4ZeroTracks.length = 21 ∧
    (scanForRadioStations c4ZeroTracks [] 0).2.length = 3 := by
  refine ⟨by decide, by decide, by decide⟩
